import Mathlib

/-!
# Verification of the cloudflare image API worker

A shallow embedding of `src/index.js` of the `cloudflare-img-api-worker`
repository: a Cloudflare Worker that authenticates administrative requests
(upload / delete / purge), proxies them to an R2 object store and the
Cloudflare cache-purge API, and rewrites other requests into image
transformation requests.

JavaScript strings are modelled as Lean `String`s, operating on their
`List Char` of code points (the handlers only ever slice at ASCII
boundaries, where JS UTF-16 code-unit indexing and code-point indexing
agree).  JavaScript numbers are modelled exactly as `JSNum`
(NaN / signed infinity / a rational value); double rounding and overflow
are not modelled, which does not affect the NaN-vs-number and
string-vs-number distinctions the handlers make.  Fallible JS operations
(an uncaught exception such as `atob` on invalid base64) are modelled with
`Except`.
-/

namespace ImgWorker

/-! ## String helpers (JS semantics on code points) -/

/-- JS `String.prototype.startsWith`, on code points. -/
def strStartsWith (s p : String) : Bool :=
  p.data.isPrefixOf s.data

/-- JS `String.prototype.substring(n)` (take the suffix from index `n`). -/
def strDropN (s : String) (n : Nat) : String :=
  ⟨s.data.drop n⟩

/-- Substring containment: JS `String.prototype.includes` / an un-anchored
literal regex test such as `/image\/avif/.test(s)`. -/
def strHasSub (sub s : String) : Bool :=
  decide (sub.data <:+: s.data)

/-! ## JavaScript values

Handlers destructure parsed JSON bodies and test fields for truthiness, so
we need a small model of JSON-representable JS values. -/

/-- A JavaScript value, as far as the worker's handlers observe one. -/
inductive JSValue where
  | jsNull
  | undefined
  | boolean (b : Bool)
  | number (n : Int)
  | str (s : String)
  | obj (fields : List (String × JSValue))
  | arr (elems : List JSValue)

/-- JS truthiness: `null`, `undefined`, `false`, `0`, and `""` are falsy. -/
def JSValue.truthy : JSValue → Bool
  | .jsNull => false
  | .undefined => false
  | .boolean b => b
  | .number n => decide (n ≠ 0)
  | .str s => decide (s ≠ "")
  | .obj _ => true
  | .arr _ => true

/-- Property access / destructuring `const { k } = v`.  Throws a
`TypeError` when `v` is `null` or `undefined`; on any other non-object the
field is `undefined`; on an object, the first binding for the key (JSON
parse keeps the last duplicate, but the handler bodies here are built
directly, so first-match lookup is the observable behaviour). -/
def JSValue.getField : JSValue → String → Except String JSValue
  | .jsNull, k => .error ("TypeError: cannot destructure " ++ k ++ " of null")
  | .undefined, k => .error ("TypeError: cannot destructure " ++ k ++ " of undefined")
  | .obj fields, k => .ok (((fields.find? (fun p => p.1 = k)).map Prod.snd).getD .undefined)
  | _, _ => .ok .undefined

mutual

/-- JS string coercion (`String(v)`), used where the worker passes a field
into a string-typed sink such as `atob` or an R2 key.  An array coerces
via `Array.prototype.join(",")`. -/
def JSValue.toJSString : JSValue → String
  | .jsNull => "null"
  | .undefined => "undefined"
  | .boolean true => "true"
  | .boolean false => "false"
  | .number n => toString n
  | .str s => s
  | .obj _ => "[object Object]"
  | .arr elems => JSValue.arrElemsJoin elems

/-- `Array.prototype.join(",")` as used by array-to-string coercion:
elements are comma-separated, each stringified by `arrElemString`. -/
def JSValue.arrElemsJoin : List JSValue → String
  | [] => ""
  | [v] => JSValue.arrElemString v
  | v :: w :: rest => JSValue.arrElemString v ++ "," ++ JSValue.arrElemsJoin (w :: rest)

/-- One array element under `join`: `null` and `undefined` render as the
empty string; every other value stringifies as usual. -/
def JSValue.arrElemString : JSValue → String
  | .jsNull => ""
  | .undefined => ""
  | .boolean true => "true"
  | .boolean false => "false"
  | .number n => toString n
  | .str s => s
  | .obj _ => "[object Object]"
  | .arr elems => JSValue.arrElemsJoin elems

end

/-! ## Path validator

`isValidPath` is exported by the repository's `src/index.js` and exercised
by its test suite, but the handler source excerpt available under `src/`
predates it.  Modelled from the spec: §4.1 "Path Validator" — input must
be a non-empty string, must not start with `/` or `.`, must not contain
`..` or `//`, and must not contain a control character (code point
< 0x20); any failing rule rejects. -/
def isValidPath (input : JSValue) : Bool :=
  match input with
  | .str s =>
      !(s = "") &&
      !(strStartsWith s "/") &&
      !(strStartsWith s ".") &&
      !(strHasSub ".." s) &&
      !(strHasSub "//" s) &&
      !(s.data.any (fun c => decide (c.toNat < 0x20)))
  | _ => false

/-! ## Authenticator (`isAuthorized`, src/index.js lines 31–38)

```js
const authHeader = request.headers.get('Authorization');
if (!authHeader || !authHeader.startsWith('Bearer ')) return false;
const token = authHeader.substring(7);
return token === env.IMAGE_API_SECRET;
```

`request.headers.get` yields `null` for an absent header (`none` here);
`env.IMAGE_API_SECRET` may be `undefined` when the secret is not
configured (`none` here), and a string `token` is never strictly equal
(`===`) to `undefined`. -/
def isAuthorized (authHeader : Option String) (secret : Option String) : Bool :=
  match authHeader with
  | none => false
  | some h =>
      if h = "" then false
      else if !(strStartsWith h "Bearer ") then false
      else
        match secret with
        | some s => decide (strDropN h 7 = s)
        | none => false

/-! ## base64 decoding (`atob`)

`handleUpload` runs `Uint8Array.from(atob(fileBase64), c => c.charCodeAt(0))`
with no surrounding `try`: `atob` implements WHATWG forgiving-base64
decode and THROWS an `InvalidCharacterError` when the input is not valid
base64.  `none` models the throw. -/

/-- Value of a character in the base64 alphabet. -/
def base64Val (c : Char) : Option Nat :=
  if 'A' ≤ c ∧ c ≤ 'Z' then some (c.toNat - 65)
  else if 'a' ≤ c ∧ c ≤ 'z' then some (c.toNat - 97 + 26)
  else if '0' ≤ c ∧ c ≤ '9' then some (c.toNat - 48 + 52)
  else if c = '+' then some 62
  else if c = '/' then some 63
  else none

/-- Decode a list of 6-bit values into bytes, per forgiving-base64: full
groups of four 6-bit values give three bytes; a trailing group of two
gives one byte, of three gives two bytes. -/
def decodeB64Chunks : List Nat → List Nat
  | a :: b :: c :: d :: rest =>
      let n := ((a * 64 + b) * 64 + c) * 64 + d
      (n / 65536) :: (n / 256 % 256) :: (n % 256) :: decodeB64Chunks rest
  | [a, b] => [(a * 64 + b) / 16]
  | [a, b, c] => [((a * 64 + b) * 64 + c) / 1024, ((a * 64 + b) * 64 + c) / 4 % 256]
  | _ => []

/-- ASCII whitespace removed by forgiving-base64 decode. -/
def isB64Whitespace (c : Char) : Bool :=
  c = ' ' || c = '\t' || c = '\n' || c = '\x0c' || c = '\r'

/-- Strip one or two trailing `=` padding characters. -/
def stripB64Pad (cs : List Char) : List Char :=
  if cs.getLast? = some '=' then
    let cs1 := cs.dropLast
    if cs1.getLast? = some '=' then cs1.dropLast else cs1
  else cs

/-- WHATWG forgiving-base64 decode (the semantics of `atob`); `none`
models the `InvalidCharacterError` throw. -/
def atob (s : String) : Option (List Nat) :=
  let cs := s.data.filter (fun c => !(isB64Whitespace c))
  let cs := if cs.length % 4 = 0 then stripB64Pad cs else cs
  if cs.length % 4 = 1 then none
  else
    match cs.mapM base64Val with
    | none => none
    | some vals => some (decodeB64Chunks vals)

/-! ## Object store (R2 bucket binding `MEDIA_BUCKET`)

Modelled as an association list from keys to stored objects, with
`get` / `put` / `delete` by string key. -/

/-- An object stored in the bucket, with the HTTP metadata the upload
handler attaches. -/
structure R2Object where
  contents : List Nat
  contentType : String
  cacheControl : String
deriving DecidableEq, Repr

/-- The bucket state: key-addressed binary storage. -/
def Store := List (String × R2Object)

instance : DecidableEq Store := inferInstanceAs (DecidableEq (List (String × R2Object)))

/-- `env.MEDIA_BUCKET.get(key)`. -/
def storeGet (st : Store) (k : String) : Option R2Object :=
  ((st.find? (fun p => p.1 = k)).map Prod.snd)

/-- `env.MEDIA_BUCKET.put(key, buffer, { httpMetadata })`: last write
wins, overwriting any existing object at the key. -/
def storePut (st : Store) (k : String) (o : R2Object) : Store :=
  (st.filter (fun p => !(p.1 = k))) ++ [(k, o)]

/-- `env.MEDIA_BUCKET.delete(key)`. -/
def storeDelete (st : Store) (k : String) : Store :=
  st.filter (fun p => !(p.1 = k))

/-! ## HTTP responses -/

/-- The worker's synthesized `Response`: a status, a body string, and the
explicitly set headers. -/
structure HttpResponse where
  status : Nat
  body : String
  headers : List (String × String)
deriving DecidableEq, Repr

/-- JSON string escaping as performed by `JSON.stringify` on the error and
path strings it embeds (quote, backslash and the common control escapes;
other characters pass through unchanged — the handlers never embed other
control characters, since validated paths exclude them). -/
def jsonEscape (s : String) : String :=
  s.data.foldl
    (fun acc c =>
      acc ++ (if c = '"' then "\\\""
              else if c = '\\' then "\\\\"
              else if c = '\n' then "\\n"
              else if c = '\r' then "\\r"
              else if c = '\t' then "\\t"
              else String.singleton c)) ""

/-- `JSON.stringify({ success: false, error: msg })`. -/
def jsonFail (msg : String) : String :=
  "\x7b\"success\":false,\"error\":\"" ++ jsonEscape msg ++ "\"\x7d"

/-- `JSON.stringify({ success: true, deleted: p })`. -/
def jsonDeleted (p : String) : String :=
  "\x7b\"success\":true,\"deleted\":\"" ++ jsonEscape p ++ "\"\x7d"

/-- The `{ 'Content-Type': 'application/json' }` response headers. -/
def ctJson : List (String × String) := [("Content-Type", "application/json")]

/-! ## Upload handler (`handleUpload`, src/index.js lines 46–78)

The inbound request as the handler observes it: the two headers it reads
and the outcome of `await request.json()` (`none` = the parse threw and
was caught). -/

structure UploadRequest where
  authHeader : Option String
  contentTypeHeader : Option String
  body : Option JSValue

/-- `handleUpload`.  Returns the handler outcome (`Except.error` models an
exception escaping the handler) together with the resulting store.

The path-validation step (400 on an invalid `path`, before the storage
write) is not in the handler source excerpt under `src/`.  Modelled from
the spec: §4.4 "`path` fails Path Validator ⇒ 400 … treat Path Validator
as mandatory before the storage write", placed after the missing-field
check and before the base64 decode, matching the spec's step order and
the repository's test suite. -/
def handleUpload (req : UploadRequest) (secret : Option String) (st : Store) :
    Except String HttpResponse × Store :=
  if !(isAuthorized req.authHeader secret) then
    (.ok ⟨401, "Unauthorized", []⟩, st)
  else if !(req.contentTypeHeader = some "application/json") then
    (.ok ⟨400, "Content-Type must be application/json", []⟩, st)
  else
    match req.body with
    | none => (.ok ⟨400, "Invalid JSON body", []⟩, st)
    | some body =>
        match body.getField "path", body.getField "contentType", body.getField "fileBase64" with
        | .ok path, .ok contentType, .ok fileBase64 =>
            if !(path.truthy && contentType.truthy && fileBase64.truthy) then
              (.ok ⟨400, "Missing `path`, `contentType`, or `fileBase64` in body", []⟩, st)
            else if !(isValidPath path) then
              (.ok ⟨400, "Invalid path", []⟩, st)
            else
              match atob fileBase64.toJSString with
              | none => (.error "InvalidCharacterError: atob could not decode", st)
              | some buffer =>
                  (.ok ⟨201, "Uploaded " ++ path.toJSString ++ " successfully", []⟩,
                   storePut st path.toJSString
                     ⟨buffer, contentType.toJSString, "public, max-age=31536000"⟩)
        | .error e, _, _ => (.error e, st)
        | _, .error e, _ => (.error e, st)
        | _, _, .error e => (.error e, st)

/-! ## Delete handler (`handleDelete`, src/index.js lines 86–142) -/

structure DeleteRequest where
  authHeader : Option String
  body : Option JSValue

/-- `handleDelete`.  All error responses are JSON with
`{success:false, error:…}`; success is 200 with `{success:true, deleted:…}`.

The path-validation step (400 JSON error mentioning "Invalid", before the
store lookup) is not in the handler source excerpt under `src/`.  Modelled
from the spec: §4.5 "`path` invalid per Path Validator ⇒ 400 JSON error
mentioning \"Invalid\"", placed after the missing-path check and before
the store lookup, matching the spec's step order and the repository's
test suite. -/
def handleDelete (req : DeleteRequest) (secret : Option String) (st : Store) :
    Except String HttpResponse × Store :=
  if !(isAuthorized req.authHeader secret) then
    (.ok ⟨401, jsonFail "Unauthorized", ctJson⟩, st)
  else
    match req.body with
    | none => (.ok ⟨400, jsonFail "Invalid JSON body", ctJson⟩, st)
    | some body =>
        match body.getField "path" with
        | .error e => (.error e, st)
        | .ok path =>
            if !(path.truthy) then
              (.ok ⟨400, jsonFail "Missing `path` field in body", ctJson⟩, st)
            else if !(isValidPath path) then
              (.ok ⟨400, jsonFail "Invalid path", ctJson⟩, st)
            else
              match storeGet st path.toJSString with
              | none =>
                  (.ok ⟨404,
                        jsonFail ("File \"" ++ path.toJSString ++ "\" not found in bucket"),
                        ctJson⟩, st)
              | some _ =>
                  (.ok ⟨200, jsonDeleted path.toJSString, ctJson⟩,
                   storeDelete st path.toJSString)

/-! ## JSON serialization of a value (`JSON.stringify`)

Used by the purge handler for `JSON.stringify(data.errors)` and the
success envelope.  `data` always comes from `JSON.parse`, so `undefined`
never occurs inside it; the top-level `undefined` case renders as the
template literal `${JSON.stringify(undefined)}` would. -/

mutual

/-- `JSON.stringify` of one value. -/
def jsonStringifyV : JSValue → String
  | .jsNull => "null"
  | .undefined => "undefined"
  | .boolean true => "true"
  | .boolean false => "false"
  | .number n => toString n
  | .str s => "\"" ++ jsonEscape s ++ "\""
  | .obj fields => "\x7b" ++ jsonStringifyFields fields ++ "\x7d"
  | .arr elems => "[" ++ jsonStringifyElems elems ++ "]"

/-- Comma-separated `"key":value` members of an object. -/
def jsonStringifyFields : List (String × JSValue) → String
  | [] => ""
  | [p] => "\"" ++ jsonEscape p.1 ++ "\":" ++ jsonStringifyV p.2
  | p :: q :: rest =>
      "\"" ++ jsonEscape p.1 ++ "\":" ++ jsonStringifyV p.2 ++ ","
        ++ jsonStringifyFields (q :: rest)

/-- Comma-separated elements of an array. -/
def jsonStringifyElems : List JSValue → String
  | [] => ""
  | [v] => jsonStringifyV v
  | v :: w :: rest => jsonStringifyV v ++ "," ++ jsonStringifyElems (w :: rest)

end

/-! ## Purge handler (`handlePurge`, src/index.js lines 150–205)

The URL parser (`new URL(u).toString()`, `none` = constructor throw) and
the outbound Cloudflare purge call are external collaborators, passed in
as functions. -/

structure PurgeRequest where
  authHeader : Option String
  body : Option JSValue

/-- The observable outcome of the outbound `fetch` to the Cloudflare
purge API: `purgeRes.ok` and the result of `purgeRes.json()` (`none` =
the body was not JSON and `.json()` threw). -/
structure PurgeCallResult where
  ok : Bool
  jsonBody : Option JSValue

/-- `JSON.stringify({ success: true, purged: target, cloudflare: data })`. -/
def purgeSuccessBody (target : String) (data : JSValue) : String :=
  "\x7b\"success\":true,\"purged\":\"" ++ jsonEscape target ++ "\",\"cloudflare\":"
    ++ jsonStringifyV data ++ "\x7d"

/-- `handlePurge`.  The second component is the URL actually sent to the
purge API (`none` = the outbound purge call was never made).
`Except.error` models an exception escaping the handler. -/
def handlePurge (req : PurgeRequest) (secret : Option String)
    (parseURL : String → Option String)
    (purgeCall : String → PurgeCallResult) :
    Except String HttpResponse × Option String :=
  if !(isAuthorized req.authHeader secret) then
    (.ok ⟨401, "Unauthorized", []⟩, none)
  else
    match req.body with
    | none => (.ok ⟨400, "Invalid JSON body", []⟩, none)
    | some body =>
        match body.getField "url" with
        | .error e => (.error e, none)
        | .ok urlV =>
            if !(urlV.truthy) then
              (.ok ⟨400, "Missing `url` field in body", []⟩, none)
            else
              match parseURL urlV.toJSString with
              | none => (.ok ⟨400, "Invalid `url` field", []⟩, none)
              | some purgeTarget =>
                  let res := purgeCall purgeTarget
                  match res.jsonBody with
                  | none => (.error "SyntaxError: purge response body is not JSON",
                             some purgeTarget)
                  | some data =>
                      -- `if (!purgeRes.ok || !data.success)`, with JS short-circuit:
                      -- `data.success` is only read when `purgeRes.ok` holds, and
                      -- `data.errors` is read inside the branch.
                      if !res.ok then
                        match data.getField "errors" with
                        | .error e => (.error e, some purgeTarget)
                        | .ok errs =>
                            (.ok ⟨500, "Failed to purge: " ++ jsonStringifyV errs, []⟩,
                             some purgeTarget)
                      else
                        match data.getField "success" with
                        | .error e => (.error e, some purgeTarget)
                        | .ok succV =>
                            if !(succV.truthy) then
                              match data.getField "errors" with
                              | .error e => (.error e, some purgeTarget)
                              | .ok errs =>
                                  (.ok ⟨500, "Failed to purge: " ++ jsonStringifyV errs, []⟩,
                                   some purgeTarget)
                            else
                              (.ok ⟨200, purgeSuccessBody purgeTarget data, ctJson⟩,
                               some purgeTarget)

/-! ## JavaScript `Number(string)` (ECMAScript StringNumericLiteral)

The serving handler runs `const num = Number(value); imageOptions[key] =
isNaN(num) ? value : num;`.  `JSNum` models a JS number exactly as
NaN / a signed infinity / a rational value; IEEE-754 rounding and
overflow are not modelled (they never change whether the result is NaN,
which is the only thing the handler tests). -/

/-- A JavaScript number: NaN, a signed infinity, or a (here: exact
rational) value. -/
inductive JSNum where
  | nan
  | inf (neg : Bool)
  | val (q : ℚ)
deriving DecidableEq, Repr

/-- Decimal digit value. -/
def digitVal (c : Char) : Option Nat :=
  if '0' ≤ c ∧ c ≤ '9' then some (c.toNat - 48) else none

/-- Hexadecimal digit value. -/
def hexDigitVal (c : Char) : Option Nat :=
  if '0' ≤ c ∧ c ≤ '9' then some (c.toNat - 48)
  else if 'a' ≤ c ∧ c ≤ 'f' then some (c.toNat - 97 + 10)
  else if 'A' ≤ c ∧ c ≤ 'F' then some (c.toNat - 65 + 10)
  else none

/-- Octal digit value. -/
def octDigitVal (c : Char) : Option Nat :=
  if '0' ≤ c ∧ c ≤ '7' then some (c.toNat - 48) else none

/-- Binary digit value. -/
def binDigitVal (c : Char) : Option Nat :=
  if c = '0' ∨ c = '1' then some (c.toNat - 48) else none

/-- Take the longest run of digits (under `f`) from the front, returning
their values and the rest. -/
def takeDigitsWith (f : Char → Option Nat) : List Char → List Nat × List Char
  | [] => ([], [])
  | c :: cs =>
      match f c with
      | some d => let p := takeDigitsWith f cs; (d :: p.1, p.2)
      | none => ([], c :: cs)

/-- Digits to a natural number in the given base. -/
def digitsToNat (base : Nat) (ds : List Nat) : Nat :=
  ds.foldl (fun acc d => acc * base + d) 0

/-- Exponent digits (after an optional sign), which must be non-empty and
consume the whole rest. -/
def parseExpDigits (neg : Bool) (cs : List Char) : Option Int :=
  let p := takeDigitsWith digitVal cs
  if p.1.isEmpty || !(p.2.isEmpty) then none
  else some (if neg then -(digitsToNat 10 p.1 : Int) else (digitsToNat 10 p.1 : Int))

/-- An optional `ExponentPart` closing the literal: empty rest means
exponent 0; otherwise `e`/`E`, an optional sign, and digits. -/
def parseExpPart : List Char → Option Int
  | [] => some 0
  | c :: cs =>
      if c = 'e' || c = 'E' then
        match cs with
        | '+' :: cs2 => parseExpDigits false cs2
        | '-' :: cs2 => parseExpDigits true cs2
        | cs2 => parseExpDigits false cs2
      else none

/-- The exact value of `intDigits [. fracDigits] e exp`. -/
def mkDecimalValue (intDs fracDs : List Nat) (e : Int) : ℚ :=
  ((digitsToNat 10 intDs : ℚ) + (digitsToNat 10 fracDs : ℚ) / ((10 : ℚ) ^ fracDs.length))
    * (10 : ℚ) ^ e

/-- `StrUnsignedDecimalLiteral` without the `Infinity` case:
`Digits [. Digits] [Exp]` or `. Digits [Exp]`, consuming all input. -/
def parseDecContents (cs : List Char) : Option ℚ :=
  let p1 := takeDigitsWith digitVal cs
  match p1.2 with
  | '.' :: rest =>
      let p2 := takeDigitsWith digitVal rest
      if p1.1.isEmpty && p2.1.isEmpty then none
      else (parseExpPart p2.2).map (fun e => mkDecimalValue p1.1 p2.1 e)
  | r =>
      if p1.1.isEmpty then none
      else (parseExpPart r).map (fun e => mkDecimalValue p1.1 [] e)

/-- The part after an (optional) sign: `Infinity` or a decimal literal;
anything else is NaN. -/
def parseSignedPart (neg : Bool) (cs : List Char) : JSNum :=
  if cs = "Infinity".data then .inf neg
  else
    match parseDecContents cs with
    | some q => .val (if neg then -q else q)
    | none => .nan

/-- A non-empty all-digit literal in the given base consuming all input. -/
def parseRadix (f : Char → Option Nat) (base : Nat) (cs : List Char) : Option ℚ :=
  let p := takeDigitsWith f cs
  if p.1.isEmpty || !(p.2.isEmpty) then none
  else some ((digitsToNat base p.1 : ℚ))

/-- `NonDecimalIntegerLiteral`: `0x`/`0o`/`0b` literals (no sign allowed). -/
def parseNonDecimal : List Char → Option ℚ
  | '0' :: c :: rest =>
      if c = 'x' || c = 'X' then parseRadix hexDigitVal 16 rest
      else if c = 'o' || c = 'O' then parseRadix octDigitVal 8 rest
      else if c = 'b' || c = 'B' then parseRadix binDigitVal 2 rest
      else none
  | _ => none

/-- Whitespace stripped by `Number(string)`: the ECMAScript WhiteSpace set
(TAB, VT, FF, SP, NBSP, ZWNBSP and the Unicode Zs spaces — OGHAM SPACE
MARK, EN QUAD … HAIR SPACE, NARROW NO-BREAK SPACE, MEDIUM MATHEMATICAL
SPACE, IDEOGRAPHIC SPACE) and the LineTerminator set (LF, CR, LS, PS). -/
def isJSWhitespace (c : Char) : Bool :=
  c.toNat = 0x09 || c.toNat = 0x0A || c.toNat = 0x0B || c.toNat = 0x0C ||
  c.toNat = 0x0D || c.toNat = 0x20 || c.toNat = 0xA0 || c.toNat = 0x1680 ||
  (0x2000 ≤ c.toNat && c.toNat ≤ 0x200A) || c.toNat = 0x2028 ||
  c.toNat = 0x2029 || c.toNat = 0x202F || c.toNat = 0x205F ||
  c.toNat = 0x3000 || c.toNat = 0xFEFF

/-- Strip leading and trailing whitespace. -/
def trimJSWS (cs : List Char) : List Char :=
  ((cs.dropWhile isJSWhitespace).reverse.dropWhile isJSWhitespace).reverse

/-- `Number(s)` for a string `s`: trim; empty ⇒ 0; a sign permits only a
decimal literal or `Infinity`; unsigned input may also be a
radix-prefixed integer literal. -/
def jsStringToNumber (s : String) : JSNum :=
  match trimJSWS s.data with
  | [] => .val 0
  | '+' :: rest => parseSignedPart false rest
  | '-' :: rest => parseSignedPart true rest
  | cs =>
      match parseNonDecimal cs with
      | some q => .val q
      | none => parseSignedPart false cs

/-! ## Image-serving handler (`handleFetchAndTransform`, src/index.js lines 212–268) -/

/-- A value in the `imageOptions` object: the raw query string, or the
parsed number. -/
inductive OptVal where
  | num (n : JSNum)
  | str (s : String)
deriving DecidableEq, Repr

/-- JS object assignment `o[k] = v`: updates the value in place if the
key is present (keeping insertion order), else appends. -/
def objSet (o : List (String × OptVal)) (k : String) (v : OptVal) :
    List (String × OptVal) :=
  if (o.find? (fun p => p.1 = k)).isSome then
    o.map (fun p => if p.1 = k then (k, v) else p)
  else o ++ [(k, v)]

/-- JS object lookup `o[k]`. -/
def objGet (o : List (String × OptVal)) (k : String) : Option OptVal :=
  (o.find? (fun p => p.1 = k)).map Prod.snd

/-- The fixed `allowedParams` allow-list (src/index.js line 219). -/
def allowedParams : List String :=
  ["width", "height", "quality", "fit", "dpr", "gravity", "crop", "pad",
   "background", "draw", "rotate", "trim"]

/-- `const num = Number(value); isNaN(num) ? value : num`. -/
def mapQueryValue (v : String) : OptVal :=
  match jsStringToNumber v with
  | .nan => .str v
  | n => .num n

/-- Case-sensitive substring format negotiation from the `Accept` header
(src/index.js lines 229–238): the regexes `/image\/avif/`, `/image\/webp/`
and `/image\//` are un-anchored literal tests. -/
def negotiateFormat (accept : String) : String :=
  if strHasSub "image/avif" accept then "avif"
  else if strHasSub "image/webp" accept then "webp"
  else if strHasSub "image/" accept then "jpeg"
  else "jpeg"

/-- The `imageOptions` object: the query loop over `searchParams.entries()`
keeping only allow-listed keys, then `imageOptions.format = …` from the
negotiated accept value. -/
def buildImageOptions (query : List (String × String)) (accept : String) :
    List (String × OptVal) :=
  objSet
    (query.foldl
      (fun o kv =>
        if allowedParams.contains kv.1 then objSet o kv.1 (mapQueryValue kv.2) else o)
      [])
    "format" (.str (negotiateFormat accept))

/-- The serving request as the handler observes it. -/
structure ServeRequest where
  pathname : String
  query : List (String × String)
  acceptHeader : Option String

/-- The synthetic transformation request the handler sends upstream. -/
structure TransformRequest where
  url : String
  options : List (String × OptVal)
  userAgent : String
  accept : String

/-- What the upstream transformation fetch returns. -/
structure UpstreamResponse where
  status : Nat
  statusText : String
  body : String
  headers : List (String × String)

/-- The serving handler's `Response` (status text is passed through). -/
structure ServeResponse where
  status : Nat
  statusText : String
  body : String
  headers : List (String × String)
deriving DecidableEq, Repr

/-- ASCII lowercase of a header name (header matching is
case-insensitive). -/
def asciiLower (s : String) : String :=
  ⟨s.data.map Char.toLower⟩

/-- `Headers.set`: replace the value of a present (case-insensitive)
header, else append. -/
def headersSet (hs : List (String × String)) (k v : String) :
    List (String × String) :=
  if (hs.find? (fun p => asciiLower p.1 = asciiLower k)).isSome then
    hs.map (fun p => if asciiLower p.1 = asciiLower k then (p.1, v) else p)
  else hs ++ [(k, v)]

/-- `Headers.get`, case-insensitive. -/
def headersGet (hs : List (String × String)) (k : String) : Option String :=
  (hs.find? (fun p => asciiLower p.1 = asciiLower k)).map Prod.snd

/-- The synthetic request the handler sends to the transformation
backend: the fixed origin base plus the incoming path, the `imageOptions`
built from query + Accept, a fixed user agent, and the original Accept
header defaulting to `image/*` when absent or empty. -/
def transformRequestOf (req : ServeRequest) : TransformRequest :=
  { url := "https://media.arroweffect.com" ++ req.pathname,
    options := buildImageOptions req.query (req.acceptHeader.getD ""),
    userAgent := "Cloudflare-Worker",
    accept := if req.acceptHeader.getD "" = "" then "image/*"
              else req.acceptHeader.getD "" }

/-- `handleFetchAndTransform`: build the origin URL and `imageOptions`,
issue the transformation fetch (an external collaborator, passed in as a
function), then shape the response: upstream 404 becomes a short-cached
`Image not found`; anything else passes body / status / status text
through with `Cache-Control` overwritten to the one-year value. -/
def handleFetchAndTransform (req : ServeRequest)
    (fetchTransform : TransformRequest → UpstreamResponse) : ServeResponse :=
  let upstream := fetchTransform (transformRequestOf req)
  if upstream.status = 404 then
    { status := 404, statusText := "", body := "Image not found",
      headers := [("Cache-Control", "public, max-age=60")] }
  else
    { status := upstream.status, statusText := upstream.statusText,
      body := upstream.body,
      headers := headersSet upstream.headers "Cache-Control"
        "public, max-age=31536000, stale-while-revalidate=86400" }

/-! ## Helper lemmas -/

theorem strHasSub_iff (sub s : String) : strHasSub sub s = true ↔ sub.data <:+: s.data := by
  simp [strHasSub]

theorem strStartsWith_iff (s p : String) : strStartsWith s p = true ↔ p.data <+: s.data := by
  simp [strStartsWith, List.isPrefixOf_iff_prefix]

theorem isAuthorized_none (h : Option String) : isAuthorized h none = false := by
  cases h with
  | none => rfl
  | some u =>
      simp only [isAuthorized]
      split
      · rfl
      · split <;> rfl

/-! ## Claim theorems -/

/-- C2: `isValidPath` is a total Lean function (hence deterministic and
never throwing) that returns `false` for every non-string input (null,
undefined, numbers), the empty string, every string starting with `/` or
`.`, every string containing the substring `..` or `//`, and every string
containing a control character (code point below 0x20); it returns `true`
for the ordinary relative keys `"images/photo.jpg"` and `"a.txt"`. -/
theorem isValidPath_spec :
    (isValidPath .jsNull = false ∧ isValidPath .undefined = false ∧
      ∀ n : Int, isValidPath (.number n) = false) ∧
    isValidPath (.str "") = false ∧
    (∀ s : String, s.data.head? = some '/' ∨ s.data.head? = some '.' →
      isValidPath (.str s) = false) ∧
    (∀ s : String, "..".data <:+: s.data ∨ "//".data <:+: s.data →
      isValidPath (.str s) = false) ∧
    (∀ s : String, (∃ c ∈ s.data, c.toNat < 0x20) → isValidPath (.str s) = false) ∧
    isValidPath (.str "images/photo.jpg") = true ∧
    isValidPath (.str "a.txt") = true := by
  refine ⟨⟨rfl, rfl, fun _ => rfl⟩, rfl, ?_, ?_, ?_, by decide, by decide⟩
  · intro s h
    have hsw : strStartsWith s "/" = true ∨ strStartsWith s "." = true := by
      rcases h with h | h
      · left
        rw [strStartsWith_iff]
        cases hd : s.data with
        | nil => rw [hd] at h; exact absurd h (by simp)
        | cons c cs =>
            rw [hd] at h
            simp only [List.head?_cons, Option.some.injEq] at h
            subst h
            exact ⟨cs, rfl⟩
      · right
        rw [strStartsWith_iff]
        cases hd : s.data with
        | nil => rw [hd] at h; exact absurd h (by simp)
        | cons c cs =>
            rw [hd] at h
            simp only [List.head?_cons, Option.some.injEq] at h
            subst h
            exact ⟨cs, rfl⟩
    rcases hsw with h1 | h1 <;> simp [isValidPath, h1]
  · intro s h
    rcases h with h | h
    · have h1 : strHasSub ".." s = true := (strHasSub_iff _ _).mpr h
      simp [isValidPath, h1]
    · have h1 : strHasSub "//" s = true := (strHasSub_iff _ _).mpr h
      simp [isValidPath, h1]
  · intro s h
    obtain ⟨c, hc, hlt⟩ := h
    have h1 : s.data.any (fun c => decide (c.toNat < 0x20)) = true :=
      List.any_of_mem hc (decide_eq_true hlt)
    simp [isValidPath, h1]

/-- Witness for C2: the hypotheses of each rejection clause hold at a
concrete input. -/
theorem isValidPath_spec_witness :
    isValidPath (.str "/leading") = false ∧
    isValidPath (.str "foo/../bar") = false ∧
    isValidPath (.str "foo\nbar") = false :=
  ⟨isValidPath_spec.2.2.1 "/leading" (Or.inl rfl),
   isValidPath_spec.2.2.2.1 "foo/../bar" (Or.inl (by decide)),
   isValidPath_spec.2.2.2.2.1 "foo\nbar" ⟨'\n', by decide, by decide⟩⟩

/-- C6: the authorization predicate accepts exactly the headers that are
present, start with the literal case-sensitive prefix `"Bearer "` (single
trailing space), and whose remainder after that prefix equals the
configured secret — i.e. exactly the header `"Bearer " ++ s`; absence, a
different scheme, or a token mismatch all yield `false`. -/
theorem bearer_auth_iff (h : Option String) (s : String) :
    isAuthorized h (some s) = true ↔ h = some ("Bearer " ++ s) := by
  cases h with
  | none => simp [isAuthorized]
  | some u =>
      simp only [isAuthorized, Option.some.injEq]
      constructor
      · intro hu
        split at hu
        · exact absurd hu (by simp)
        · split at hu
          · exact absurd hu (by simp)
          · rename_i he hsw
            have hsw' : strStartsWith u "Bearer " = true := by
              cases hx : strStartsWith u "Bearer "
              · exact absurd (by rw [hx]; rfl) hsw
              · rfl
            obtain ⟨t, ht⟩ := (strStartsWith_iff _ _).mp hsw'
            have hdrop : strDropN u 7 = s := of_decide_eq_true hu
            have hmk : u.data.drop 7 = s.data := by
              have h2 := congrArg String.data hdrop
              simpa [strDropN] using h2
            have ht7 : u.data.drop 7 = t := by
              rw [← ht]
              rfl
            apply String.ext
            show u.data = ("Bearer " ++ s).data
            rw [show ("Bearer " ++ s).data = "Bearer ".data ++ s.data from rfl,
               ← hmk, ht7, ht]
      · intro hu
        subst hu
        have hne : ¬("Bearer " ++ s = "") := by
          intro hx
          have := congrArg String.data hx
          simp only [show ("Bearer " ++ s).data = "Bearer ".data ++ s.data from rfl] at this
          exact absurd this (by simp)
        rw [if_neg hne]
        have hsw : strStartsWith ("Bearer " ++ s) "Bearer " = true :=
          (strStartsWith_iff _ _).mpr ⟨s.data, rfl⟩
        rw [hsw]
        simp only [Bool.not_true, Bool.false_eq_true, if_false]
        exact decide_eq_true (by
          apply String.ext
          show ("Bearer " ++ s).data.drop 7 = s.data
          rfl)

/-- Witness for C6 at a concrete header and secret. -/
theorem bearer_auth_iff_witness :
    isAuthorized (some "Bearer tok") (some "tok") = true :=
  (bearer_auth_iff (some "Bearer tok") "tok").mpr rfl

/-- C9: with no configured secret (`env.IMAGE_API_SECRET` undefined) the
authorization predicate is constantly `false` — a string token never
strictly equals `undefined` — so every POST to `/upload`, `/delete` or
`/purge` is answered 401, the store is returned unchanged, and the
outbound purge call is never made. -/
theorem missing_secret_rejects_everything :
    (∀ h : Option String, isAuthorized h none = false) ∧
    (∀ (req : UploadRequest) (st : Store),
      handleUpload req none st = (.ok ⟨401, "Unauthorized", []⟩, st)) ∧
    (∀ (req : DeleteRequest) (st : Store),
      handleDelete req none st = (.ok ⟨401, jsonFail "Unauthorized", ctJson⟩, st)) ∧
    (∀ (req : PurgeRequest) (parseURL : String → Option String)
       (purgeCall : String → PurgeCallResult),
      handlePurge req none parseURL purgeCall = (.ok ⟨401, "Unauthorized", []⟩, none)) := by
  refine ⟨isAuthorized_none, ?_, ?_, ?_⟩
  · intro req st
    simp [handleUpload, isAuthorized_none]
  · intro req st
    simp [handleDelete, isAuthorized_none]
  · intro req parseURL purgeCall
    simp [handlePurge, isAuthorized_none]

theorem bool_true_of_not_bang {b : Bool} (h : ¬((!b) = true)) : b = true := by
  cases b
  · exact absurd rfl h
  · rfl

theorem bool_false_of_bang {b : Bool} (h : (!b) = true) : b = false := by
  cases b
  · rfl
  · exact absurd h (by simp)

/-- Exhaustive big-step case analysis of `handleDelete`: either the store
is untouched and no 200 response is produced, or every guard passed and
the handler deleted the key and answered 200. -/
theorem handleDelete_cases (req : DeleteRequest) (secret : Option String) (st : Store) :
    ((handleDelete req secret st).2 = st ∧
      ∀ r, (handleDelete req secret st).1 = Except.ok r → r.status ≠ 200) ∨
    (∃ body p o, req.body = some body ∧ body.getField "path" = Except.ok p ∧
      p.truthy = true ∧ isValidPath p = true ∧
      isAuthorized req.authHeader secret = true ∧
      storeGet st p.toJSString = some o ∧
      handleDelete req secret st
        = (.ok ⟨200, jsonDeleted p.toJSString, ctJson⟩, storeDelete st p.toJSString)) := by
  unfold handleDelete
  split
  · exact Or.inl ⟨rfl, by rintro r ⟨⟩; simp⟩
  · rename_i hauth
    split
    · exact Or.inl ⟨rfl, by rintro r ⟨⟩; simp⟩
    · rename_i body hbody
      split
      · exact Or.inl ⟨rfl, by rintro r h; cases h⟩
      · rename_i p hget
        split
        · exact Or.inl ⟨rfl, by rintro r ⟨⟩; simp⟩
        · rename_i htr
          split
          · exact Or.inl ⟨rfl, by rintro r ⟨⟩; simp⟩
          · rename_i hvalid
            split
            · exact Or.inl ⟨rfl, by rintro r ⟨⟩; simp⟩
            · rename_i o hst
              refine Or.inr ⟨body, p, o, hbody, hget, ?_, ?_, ?_, hst, rfl⟩
              · exact bool_true_of_not_bang htr
              · exact bool_true_of_not_bang hvalid
              · exact bool_true_of_not_bang hauth

/-- Exhaustive big-step case analysis of `handleUpload`: either the store
is untouched, or every guard passed (including path validation and base64
decoding) and the handler wrote the object and answered 201. -/
theorem handleUpload_cases (req : UploadRequest) (secret : Option String) (st : Store) :
    (handleUpload req secret st).2 = st ∨
    (∃ body p ct fb buf, req.body = some body ∧
      body.getField "path" = Except.ok p ∧
      body.getField "contentType" = Except.ok ct ∧
      body.getField "fileBase64" = Except.ok fb ∧
      isAuthorized req.authHeader secret = true ∧
      req.contentTypeHeader = some "application/json" ∧
      (p.truthy && ct.truthy && fb.truthy) = true ∧
      isValidPath p = true ∧
      atob fb.toJSString = some buf ∧
      handleUpload req secret st
        = (.ok ⟨201, "Uploaded " ++ p.toJSString ++ " successfully", []⟩,
           storePut st p.toJSString ⟨buf, ct.toJSString, "public, max-age=31536000"⟩)) := by
  unfold handleUpload
  split
  · exact Or.inl rfl
  · rename_i hauth
    split
    · exact Or.inl rfl
    · rename_i hct
      split
      · exact Or.inl rfl
      · rename_i body hbody
        split
        · rename_i p ct fb hp hc hf
          split
          · exact Or.inl rfl
          · rename_i htr
            split
            · exact Or.inl rfl
            · rename_i hvalid
              split
              · exact Or.inl rfl
              · rename_i buf hbuf
                refine Or.inr ⟨body, p, ct, fb, buf, hbody, hp, hc, hf,
                  bool_true_of_not_bang hauth,
                  of_decide_eq_true (bool_true_of_not_bang hct),
                  bool_true_of_not_bang htr,
                  bool_true_of_not_bang hvalid, hbuf, rfl⟩
        · exact Or.inl rfl
        · exact Or.inl rfl
        · exact Or.inl rfl

/-- C1: a storage mutation (upload put, delete delete) happens only when
the caller-supplied `path` passed the path validator; with a path that
fails the validator an otherwise well-formed authorized request gets a 400
(for delete: a JSON error mentioning "Invalid") and the store is returned
unchanged. -/
theorem path_validation_guards_storage :
    (∀ (req : UploadRequest) (secret : Option String) (st : Store),
        (handleUpload req secret st).2 ≠ st →
        ∃ body path, req.body = some body ∧ body.getField "path" = Except.ok path ∧
          isValidPath path = true) ∧
    (∀ (req : DeleteRequest) (secret : Option String) (st : Store),
        (handleDelete req secret st).2 ≠ st →
        ∃ body path, req.body = some body ∧ body.getField "path" = Except.ok path ∧
          isValidPath path = true) ∧
    (∀ (auth secret : Option String) (st : Store) (p ct fb : JSValue),
        isAuthorized auth secret = true → p.truthy = true → ct.truthy = true →
        fb.truthy = true → isValidPath p = false →
        handleUpload ⟨auth, some "application/json",
            some (.obj [("path", p), ("contentType", ct), ("fileBase64", fb)])⟩ secret st
          = (.ok ⟨400, "Invalid path", []⟩, st)) ∧
    (∀ (auth secret : Option String) (st : Store) (p : JSValue),
        isAuthorized auth secret = true → p.truthy = true → isValidPath p = false →
        handleDelete ⟨auth, some (.obj [("path", p)])⟩ secret st
          = (.ok ⟨400, jsonFail "Invalid path", ctJson⟩, st) ∧
        strHasSub "Invalid" (jsonFail "Invalid path") = true) := by
  refine ⟨?_, ?_, ?_, ?_⟩
  · intro req secret st hmut
    rcases handleUpload_cases req secret st with h |
      ⟨body, p, ct, fb, buf, hbody, hp, _, _, _, _, _, hvalid, _, _⟩
    · exact absurd h hmut
    · exact ⟨body, p, hbody, hp, hvalid⟩
  · intro req secret st hmut
    rcases handleDelete_cases req secret st with ⟨h, _⟩ |
      ⟨body, p, o, hbody, hp, _, hvalid, _, _, _⟩
    · exact absurd h hmut
    · exact ⟨body, p, hbody, hp, hvalid⟩
  · intro auth secret st p ct fb hauth hp hct hfb hv
    have hget : (JSValue.obj [("path", p), ("contentType", ct), ("fileBase64", fb)]).getField
        "path" = Except.ok p := rfl
    have hgetc : (JSValue.obj [("path", p), ("contentType", ct), ("fileBase64", fb)]).getField
        "contentType" = Except.ok ct := rfl
    have hgetf : (JSValue.obj [("path", p), ("contentType", ct), ("fileBase64", fb)]).getField
        "fileBase64" = Except.ok fb := rfl
    simp [handleUpload, hauth, hget, hgetc, hgetf, hp, hct, hfb, hv]
  · intro auth secret st p hauth hp hv
    have hget : (JSValue.obj [("path", p)]).getField "path" = Except.ok p := rfl
    refine ⟨?_, by decide⟩
    simp [handleDelete, hauth, hget, hp, hv]

/-- Witness for C1: each clause applied at a concrete request, secret and
store. -/
theorem path_validation_guards_storage_witness :
    (∃ body path,
      ({ authHeader := some "Bearer s", contentTypeHeader := some "application/json",
         body := some (.obj [("path", .str "a.txt"), ("contentType", .str "image/jpeg"),
                   ("fileBase64", .str "aGVsbG8=")]) } : UploadRequest).body = some body ∧
      body.getField "path" = Except.ok path ∧ isValidPath path = true) ∧
    (∃ body path,
      ({ authHeader := some "Bearer s",
         body := some (.obj [("path", .str "a.txt")]) } : DeleteRequest).body = some body ∧
      body.getField "path" = Except.ok path ∧ isValidPath path = true) ∧
    handleUpload ⟨some "Bearer s", some "application/json",
        some (.obj [("path", .str "/bad"), ("contentType", .str "image/jpeg"),
                    ("fileBase64", .str "aGVsbG8=")])⟩ (some "s") []
      = (.ok ⟨400, "Invalid path", []⟩, ([] : Store)) ∧
    handleDelete ⟨some "Bearer s", some (.obj [("path", .str "/bad")])⟩ (some "s") []
      = (.ok ⟨400, jsonFail "Invalid path", ctJson⟩, ([] : Store)) :=
  ⟨path_validation_guards_storage.1
      ⟨some "Bearer s", some "application/json",
        some (.obj [("path", .str "a.txt"), ("contentType", .str "image/jpeg"),
                    ("fileBase64", .str "aGVsbG8=")])⟩ (some "s") [] (by decide),
   path_validation_guards_storage.2.1
      ⟨some "Bearer s", some (.obj [("path", .str "a.txt")])⟩ (some "s")
      [("a.txt", ⟨[104], "image/jpeg", "public, max-age=31536000"⟩)] (by decide),
   path_validation_guards_storage.2.2.1 (some "Bearer s") (some "s") [] _ _ _
      (by decide) (by decide) (by decide) (by decide) (by decide),
   (path_validation_guards_storage.2.2.2 (some "Bearer s") (some "s") [] _
      (by decide) (by decide) (by decide)).1⟩

/-- C10: the delete handler is atomic on error — whenever the response is
not a 200 (or an exception escapes), the store is unchanged, and the store
is mutated only after authorization, JSON parsing, path presence and
validity, and a successful store get have all succeeded. -/
theorem handleDelete_atomic_on_error (req : DeleteRequest) (secret : Option String)
    (st : Store) :
    (∀ r, (handleDelete req secret st).1 = Except.ok r → r.status ≠ 200 →
        (handleDelete req secret st).2 = st) ∧
    (∀ e, (handleDelete req secret st).1 = Except.error e →
        (handleDelete req secret st).2 = st) ∧
    ((handleDelete req secret st).2 ≠ st →
        isAuthorized req.authHeader secret = true ∧
        ∃ body path o, req.body = some body ∧ body.getField "path" = Except.ok path ∧
          path.truthy = true ∧ isValidPath path = true ∧
          storeGet st path.toJSString = some o ∧
          (handleDelete req secret st).1
            = Except.ok ⟨200, jsonDeleted path.toJSString, ctJson⟩) := by
  rcases handleDelete_cases req secret st with ⟨hst, _⟩ |
    ⟨body, p, o, hbody, hget, htr, hv, hauth, hsto, heq⟩
  · exact ⟨fun _ _ _ => hst, fun _ _ => hst, fun hmut => absurd hst hmut⟩
  · have h1 : (handleDelete req secret st).1
        = Except.ok ⟨200, jsonDeleted p.toJSString, ctJson⟩ := by rw [heq]
    refine ⟨?_, ?_, ?_⟩
    · intro r hr h200
      rw [h1] at hr
      injection hr with h
      subst h
      exact absurd rfl h200
    · intro e he
      rw [h1] at he
      cases he
    · intro _
      exact ⟨hauth, body, p, o, hbody, hget, htr, hv, hsto, h1⟩

/-- Witness for C10: an unauthorized delete leaves a concrete store
unchanged. -/
theorem handleDelete_atomic_on_error_witness :
    (handleDelete ⟨none, none⟩ (some "s") []).2 = ([] : Store) :=
  (handleDelete_atomic_on_error ⟨none, none⟩ (some "s") []).1
    ⟨401, jsonFail "Unauthorized", ctJson⟩ rfl (by decide)

theorem storeGet_storeDelete (st : Store) (k : String) :
    storeGet (storeDelete st k) k = none := by
  unfold storeGet storeDelete
  rw [Option.map_eq_none', List.find?_eq_none]
  intro x hx
  have hmem := List.of_mem_filter hx
  simp only [Bool.not_eq_true', decide_eq_false_iff_not] at hmem
  simpa using hmem

/-- C8: an authorized, well-formed delete of a validated path answers 404
with the `File "<path>" not found in bucket` JSON envelope and an
unchanged store when the key is absent; when the key is present it
deletes the object, answers 200 with `{success:true, deleted:<path>}`,
and the key is subsequently absent from the resulting store. -/
theorem handleDelete_found_and_notfound
    (auth secret : Option String) (st : Store) (p : JSValue)
    (hauth : isAuthorized auth secret = true) (htr : p.truthy = true)
    (hv : isValidPath p = true) :
    (storeGet st p.toJSString = none →
      handleDelete ⟨auth, some (.obj [("path", p)])⟩ secret st
        = (.ok ⟨404, jsonFail ("File \"" ++ p.toJSString ++ "\" not found in bucket"),
            ctJson⟩, st)) ∧
    (∀ o, storeGet st p.toJSString = some o →
      handleDelete ⟨auth, some (.obj [("path", p)])⟩ secret st
        = (.ok ⟨200, jsonDeleted p.toJSString, ctJson⟩, storeDelete st p.toJSString) ∧
      storeGet ((handleDelete ⟨auth, some (.obj [("path", p)])⟩ secret st).2)
        p.toJSString = none) := by
  have hget : (JSValue.obj [("path", p)]).getField "path" = Except.ok p := rfl
  constructor
  · intro hsto
    simp [handleDelete, hauth, hget, htr, hv, hsto]
  · intro o hsto
    have heq : handleDelete ⟨auth, some (.obj [("path", p)])⟩ secret st
        = (.ok ⟨200, jsonDeleted p.toJSString, ctJson⟩, storeDelete st p.toJSString) := by
      simp [handleDelete, hauth, hget, htr, hv, hsto]
    refine ⟨heq, ?_⟩
    rw [heq]
    exact storeGet_storeDelete st p.toJSString

/-- Witness for C8 at a concrete path and store, exercising both the
404/absent branch and the 200/present branch. -/
theorem handleDelete_found_and_notfound_witness :
    handleDelete ⟨some "Bearer s", some (.obj [("path", .str "a.txt")])⟩ (some "s") []
      = (.ok ⟨404, jsonFail ("File \"" ++ "a.txt" ++ "\" not found in bucket"), ctJson⟩,
         ([] : Store)) ∧
    (handleDelete ⟨some "Bearer s", some (.obj [("path", .str "a.txt")])⟩ (some "s")
        [("a.txt", ⟨[104], "text/plain", "public, max-age=31536000"⟩)]
      = (.ok ⟨200, jsonDeleted "a.txt", ctJson⟩,
         storeDelete [("a.txt", ⟨[104], "text/plain", "public, max-age=31536000"⟩)]
           "a.txt") ∧
     storeGet ((handleDelete ⟨some "Bearer s", some (.obj [("path", .str "a.txt")])⟩
        (some "s")
        [("a.txt", ⟨[104], "text/plain", "public, max-age=31536000"⟩)]).2) "a.txt"
       = none) :=
  ⟨(handleDelete_found_and_notfound (some "Bearer s") (some "s") [] (.str "a.txt")
      (by decide) (by decide) (by decide)).1 rfl,
   (handleDelete_found_and_notfound (some "Bearer s") (some "s")
      [("a.txt", ⟨[104], "text/plain", "public, max-age=31536000"⟩)] (.str "a.txt")
      (by decide) (by decide) (by decide)).2
     ⟨[104], "text/plain", "public, max-age=31536000"⟩ rfl⟩

/-- Counterexample for C3: an authorized POST /upload with
`application/json` content type, parseable JSON and all three fields
present, whose `fileBase64` (`"!!!"`) is not valid base64, does not get a
response — the uncaught `atob` exception escapes the handler (the
`Uint8Array.from(atob(fileBase64), …)` line is not inside a `try`). -/
theorem upload_throws_on_bad_base64 :
    (handleUpload ⟨some "Bearer s", some "application/json",
        some (.obj [("path", .str "a.txt"), ("contentType", .str "image/jpeg"),
                    ("fileBase64", .str "!!!")])⟩ (some "s") []).1
      = Except.error "InvalidCharacterError: atob could not decode" := rfl

/-- C3 as amended: an authorized POST /upload with `application/json`
content type, parseable JSON and all three fields present returns a
response if and only if the path validator rejects the path (400, before
the decode is reached) or `fileBase64` is valid base64; when the path is
valid and `fileBase64` is not valid base64, the `atob` decode error
propagates past the handler boundary instead. -/
theorem upload_returns_response_iff_base64_ok
    (auth secret : Option String) (st : Store) (body p ct fb : JSValue)
    (hauth : isAuthorized auth secret = true)
    (hp : body.getField "path" = Except.ok p)
    (hc : body.getField "contentType" = Except.ok ct)
    (hf : body.getField "fileBase64" = Except.ok fb)
    (htp : p.truthy = true) (htc : ct.truthy = true) (htf : fb.truthy = true) :
    (∃ r, (handleUpload ⟨auth, some "application/json", some body⟩ secret st).1
        = Except.ok r)
      ↔ (isValidPath p = false ∨ ∃ buf, atob fb.toJSString = some buf) := by
  have hstep : handleUpload ⟨auth, some "application/json", some body⟩ secret st
      = (if !(isValidPath p) then (.ok ⟨400, "Invalid path", []⟩, st)
         else
           match atob fb.toJSString with
           | none => (.error "InvalidCharacterError: atob could not decode", st)
           | some buffer =>
               (.ok ⟨201, "Uploaded " ++ p.toJSString ++ " successfully", []⟩,
                storePut st p.toJSString
                  ⟨buffer, ct.toJSString, "public, max-age=31536000"⟩)) := by
    simp [handleUpload, hauth, hp, hc, hf, htp, htc, htf]
  rw [hstep]
  cases hval : isValidPath p
  · simp
  · simp only [Bool.not_true, Bool.false_eq_true, if_false]
    cases hb : atob fb.toJSString with
    | none => simp [hb]
    | some buf => simp [hb]

/-- Witness for C3 (amended): a concrete authorized upload with valid
base64 gets a response. -/
theorem upload_returns_response_iff_base64_ok_witness :
    ∃ r, (handleUpload ⟨some "Bearer s", some "application/json",
        some (.obj [("path", .str "a.txt"), ("contentType", .str "image/jpeg"),
                    ("fileBase64", .str "aGVsbG8=")])⟩ (some "s") []).1 = Except.ok r :=
  (upload_returns_response_iff_base64_ok (some "Bearer s") (some "s") []
      (.obj [("path", .str "a.txt"), ("contentType", .str "image/jpeg"),
             ("fileBase64", .str "aGVsbG8=")])
      (.str "a.txt") (.str "image/jpeg") (.str "aGVsbG8=")
      (by decide) rfl rfl rfl (by decide) (by decide) (by decide)).mpr
    (Or.inr ⟨[104, 101, 108, 108, 111], rfl⟩)

theorem find?_map_update {α β : Type} (l : List (α × β)) (pred : α × β → Bool)
    (f : α × β → α × β) (hf : ∀ q, pred (f q) = pred q) :
    (l.map f).find? pred = (l.find? pred).map f := by
  induction l with
  | nil => rfl
  | cons q rest ih =>
      cases hq : pred q
      · rw [List.map_cons, List.find?_cons_of_neg _ (by simp [hf, hq]),
           List.find?_cons_of_neg _ (by simp [hq]), ih]
      · rw [List.map_cons, List.find?_cons_of_pos _ (by simp [hf, hq]),
           List.find?_cons_of_pos _ hq]
        rfl

theorem find?_append_of_none {α : Type} (l₁ l₂ : List α) (pred : α → Bool)
    (h : l₁.find? pred = none) : (l₁ ++ l₂).find? pred = l₂.find? pred := by
  induction l₁ with
  | nil => rfl
  | cons a rest ih =>
      cases ha : pred a
      · rw [List.cons_append, List.find?_cons_of_neg _ (by simp [ha])]
        rw [List.find?_cons_of_neg _ (by simp [ha])] at h
        exact ih h
      · rw [List.find?_cons_of_pos _ ha] at h
        cases h

theorem headersGet_headersSet_self (hs : List (String × String)) (k v : String) :
    headersGet (headersSet hs k v) k = some v := by
  unfold headersGet headersSet
  split
  · rename_i hfind
    rw [find?_map_update _ _ _
      (fun q => by by_cases hq : asciiLower q.1 = asciiLower k <;> simp [hq])]
    obtain ⟨q, hq⟩ := Option.isSome_iff_exists.mp hfind
    rw [hq]
    have hpq : asciiLower q.1 = asciiLower k := by
      have := List.find?_some hq
      simpa using this
    simp [hpq]
  · rename_i hfind
    have hnone : hs.find? (fun p => asciiLower p.1 = asciiLower k) = none := by
      cases hx : hs.find? (fun p => asciiLower p.1 = asciiLower k)
      · rfl
      · exact absurd (by rw [hx]; rfl) hfind
    rw [find?_append_of_none _ _ _ hnone]
    simp

/-- C7: if the upstream transformation fetch returns 404, the handler
responds 404 with body `Image not found` and the short public
`Cache-Control` of 60 seconds (distinct from the success value); for any
other upstream status, body, status and status text pass through
unchanged and the response `Cache-Control` is overwritten to the one-year
public value with a one-day stale-while-revalidate window, whatever the
upstream's own `Cache-Control` was. -/
theorem serve_cache_shaping (req : ServeRequest)
    (fetchTransform : TransformRequest → UpstreamResponse) :
    ((fetchTransform (transformRequestOf req)).status = 404 →
      handleFetchAndTransform req fetchTransform
        = ⟨404, "", "Image not found", [("Cache-Control", "public, max-age=60")]⟩ ∧
      ("public, max-age=60" : String)
        ≠ "public, max-age=31536000, stale-while-revalidate=86400") ∧
    ((fetchTransform (transformRequestOf req)).status ≠ 404 →
      (handleFetchAndTransform req fetchTransform).status
          = (fetchTransform (transformRequestOf req)).status ∧
      (handleFetchAndTransform req fetchTransform).body
          = (fetchTransform (transformRequestOf req)).body ∧
      (handleFetchAndTransform req fetchTransform).statusText
          = (fetchTransform (transformRequestOf req)).statusText ∧
      headersGet (handleFetchAndTransform req fetchTransform).headers "Cache-Control"
          = some "public, max-age=31536000, stale-while-revalidate=86400") := by
  constructor
  · intro h404
    refine ⟨?_, by decide⟩
    simp [handleFetchAndTransform, h404]
  · intro hne
    have hred : handleFetchAndTransform req fetchTransform
        = { status := (fetchTransform (transformRequestOf req)).status,
            statusText := (fetchTransform (transformRequestOf req)).statusText,
            body := (fetchTransform (transformRequestOf req)).body,
            headers := headersSet (fetchTransform (transformRequestOf req)).headers
              "Cache-Control"
              "public, max-age=31536000, stale-while-revalidate=86400" } := by
      simp [handleFetchAndTransform, hne]
    rw [hred]
    exact ⟨rfl, rfl, rfl, headersGet_headersSet_self _ _ _⟩

/-- Witness for C7: both branches at concrete upstream responses. -/
theorem serve_cache_shaping_witness :
    handleFetchAndTransform ⟨"/x.jpg", [], none⟩
        (fun _ => ⟨404, "Not Found", "nope", [("Cache-Control", "no-store")]⟩)
      = ⟨404, "", "Image not found", [("Cache-Control", "public, max-age=60")]⟩ ∧
    headersGet (handleFetchAndTransform ⟨"/x.jpg", [], none⟩
        (fun _ => ⟨200, "OK", "bytes", [("Cache-Control", "no-store")]⟩)).headers
        "Cache-Control"
      = some "public, max-age=31536000, stale-while-revalidate=86400" :=
  ⟨((serve_cache_shaping ⟨"/x.jpg", [], none⟩
      (fun _ => ⟨404, "Not Found", "nope", [("Cache-Control", "no-store")]⟩)).1
      rfl).1,
   ((serve_cache_shaping ⟨"/x.jpg", [], none⟩
      (fun _ => ⟨200, "OK", "bytes", [("Cache-Control", "no-store")]⟩)).2
      (by decide)).2.2.2⟩

theorem objGet_objSet_self (o : List (String × OptVal)) (k : String) (v : OptVal) :
    objGet (objSet o k v) k = some v := by
  unfold objGet objSet
  split
  · rename_i hfind
    rw [find?_map_update _ _ _ (fun q => by by_cases hq : q.1 = k <;> simp [hq])]
    obtain ⟨q, hq⟩ := Option.isSome_iff_exists.mp hfind
    rw [hq]
    have hpq : q.1 = k := by
      have := List.find?_some hq
      simpa using this
    simp [hpq]
  · rename_i hfind
    have hnone : o.find? (fun p => p.1 = k) = none := by
      cases hx : o.find? (fun p => p.1 = k)
      · rfl
      · exact absurd (by rw [hx]; rfl) hfind
    rw [find?_append_of_none _ _ _ hnone]
    simp

theorem find?_append_of_some {α : Type} (l₁ l₂ : List α) (pred : α → Bool) (a : α)
    (h : l₁.find? pred = some a) : (l₁ ++ l₂).find? pred = some a := by
  induction l₁ with
  | nil => cases h
  | cons b rest ih =>
      cases hb : pred b
      · rw [List.find?_cons_of_neg _ (by simp [hb])] at h
        rw [List.cons_append, List.find?_cons_of_neg _ (by simp [hb])]
        exact ih h
      · rw [List.find?_cons_of_pos _ hb] at h
        rw [List.cons_append, List.find?_cons_of_pos _ hb]
        exact h

theorem objGet_objSet_ne (o : List (String × OptVal)) (k k' : String) (v : OptVal)
    (h : k' ≠ k) : objGet (objSet o k v) k' = objGet o k' := by
  unfold objGet objSet
  split
  · rw [find?_map_update _ _ _ (fun q => by by_cases hq : q.1 = k <;> simp [hq])]
    cases hx : o.find? (fun p => p.1 = k')
    · simp
    · rename_i q
      have hq : q.1 = k' := by
        have := List.find?_some hx
        simpa using this
      have hqk : ¬(q.1 = k) := by rw [hq]; exact h
      simp [hqk]
  · cases hx : o.find? (fun p => p.1 = k')
    · rw [find?_append_of_none _ _ _ hx]
      have h2 : k ≠ k' := Ne.symm h
      simp [h2]
    · rw [find?_append_of_some _ _ _ _ hx]

/-- The value of the last query entry with the given key (JS object
assignment in the query loop is last-wins). -/
def lastVal (query : List (String × String)) (k : String) : Option String :=
  query.foldl (fun acc kv => if kv.1 = k then some kv.2 else acc) none

theorem lastVal_append_singleton (query : List (String × String)) (kv : String × String)
    (k : String) :
    lastVal (query ++ [kv]) k = if kv.1 = k then some kv.2 else lastVal query k := by
  unfold lastVal
  rw [List.foldl_append]
  rfl

theorem lastVal_mem (query : List (String × String)) (k s : String)
    (h : lastVal query k = some s) : (k, s) ∈ query := by
  induction query using List.reverseRecOn with
  | nil => cases h
  | append_singleton q kv ih =>
      rw [lastVal_append_singleton] at h
      by_cases hk : kv.1 = k
      · rw [if_pos hk] at h
        injection h with h
        subst h
        subst hk
        exact List.mem_append_right _ (by simp)
      · rw [if_neg hk] at h
        exact List.mem_append_left _ (ih h)

theorem lastVal_eq_none_iff (query : List (String × String)) (k : String) :
    lastVal query k = none ↔ ∀ s, (k, s) ∉ query := by
  induction query using List.reverseRecOn with
  | nil => simp [lastVal]
  | append_singleton q kv ih =>
      rw [lastVal_append_singleton]
      by_cases hk : kv.1 = k
      · rw [if_pos hk]
        constructor
        · intro h
          cases h
        · intro h
          exact absurd (List.mem_append_right _ (by simp [← hk])) (h kv.2)
      · rw [if_neg hk, ih]
        constructor
        · intro h s hs
          rcases List.mem_append.mp hs with hs | hs
          · exact h s hs
          · simp only [List.mem_singleton] at hs
            exact hk (by rw [← hs])
        · intro h s hs
          exact h s (List.mem_append_left _ hs)

/-- What the query loop leaves at each key: nothing changes outside the
allow-list, and an allow-listed key holds the mapped last query value. -/
theorem objGet_queryFold (query : List (String × String)) (o : List (String × OptVal))
    (k : String) :
    objGet (query.foldl
        (fun o kv =>
          if allowedParams.contains kv.1 then objSet o kv.1 (mapQueryValue kv.2) else o)
        o) k
      = if allowedParams.contains k then
          (match lastVal query k with
           | some s => some (mapQueryValue s)
           | none => objGet o k)
        else objGet o k := by
  induction query using List.reverseRecOn generalizing o with
  | nil =>
      cases h : allowedParams.contains k <;> simp [lastVal, h]
  | append_singleton q kv ih =>
      rw [List.foldl_append, lastVal_append_singleton]
      simp only [List.foldl_cons, List.foldl_nil]
      by_cases hkv : allowedParams.contains kv.1
      · rw [if_pos hkv]
        by_cases hk : kv.1 = k
        · subst hk
          rw [objGet_objSet_self, if_pos hkv, if_pos rfl]
        · rw [objGet_objSet_ne _ _ _ _ (fun hx => hk hx.symm), ih, if_neg hk]
      · rw [if_neg hkv]
        by_cases hk : kv.1 = k
        · subst hk
          rw [ih, if_pos rfl]
          rw [if_neg hkv, if_neg hkv]
        · rw [ih, if_neg hk]

/-- C4: the `format` key of the transformation options is determined from
the `Accept` header by case-sensitive substring tests in first-match-wins
order (`image/avif` ⇒ avif, else `image/webp` ⇒ webp, else jpeg — for a
non-image or absent Accept as well), and this negotiated value is what the
`format` key holds for every query string, since `format` is not in the
allow-list and is assigned after the query loop. -/
theorem format_always_negotiated :
    (∀ req : ServeRequest, (transformRequestOf req).options
        = buildImageOptions req.query (req.acceptHeader.getD "")) ∧
    (∀ (query : List (String × String)) (a : String),
      objGet (buildImageOptions query a) "format" = some (.str (negotiateFormat a))) ∧
    (∀ a : String, "image/avif".data <:+: a.data → negotiateFormat a = "avif") ∧
    (∀ a : String, ¬("image/avif".data <:+: a.data) → "image/webp".data <:+: a.data →
        negotiateFormat a = "webp") ∧
    (∀ a : String, ¬("image/avif".data <:+: a.data) → ¬("image/webp".data <:+: a.data) →
        negotiateFormat a = "jpeg") ∧
    allowedParams.contains "format" = false := by
  refine ⟨fun _ => rfl, ?_, ?_, ?_, ?_, by decide⟩
  · intro query a
    unfold buildImageOptions
    exact objGet_objSet_self _ _ _
  · intro a h
    have h1 : strHasSub "image/avif" a = true := (strHasSub_iff _ _).mpr h
    simp [negotiateFormat, h1]
  · intro a h1 h2
    have hb1 : strHasSub "image/avif" a = false := by
      cases hx : strHasSub "image/avif" a
      · rfl
      · exact absurd ((strHasSub_iff _ _).mp hx) h1
    have hb2 : strHasSub "image/webp" a = true := (strHasSub_iff _ _).mpr h2
    simp [negotiateFormat, hb1, hb2]
  · intro a h1 h2
    have hb1 : strHasSub "image/avif" a = false := by
      cases hx : strHasSub "image/avif" a
      · rfl
      · exact absurd ((strHasSub_iff _ _).mp hx) h1
    have hb2 : strHasSub "image/webp" a = false := by
      cases hx : strHasSub "image/webp" a
      · rfl
      · exact absurd ((strHasSub_iff _ _).mp hx) h2
    cases hb3 : strHasSub "image/" a <;> simp [negotiateFormat, hb1, hb2, hb3]

/-- Witness for C4: a caller-supplied `format=png` is overwritten by the
value negotiated from `Accept: image/webp,*/*`. -/
theorem format_always_negotiated_witness :
    objGet (buildImageOptions [("format", "png")] "image/webp,*/*") "format"
      = some (.str "webp") := by
  have h1 := format_always_negotiated.2.1 [("format", "png")] "image/webp,*/*"
  have h2 := format_always_negotiated.2.2.2.1 "image/webp,*/*" (by decide) (by decide)
  rw [h1, h2]

/-- Counterexample for C5: the query value `Infinity` does not parse as a
finite number, yet the code stores it as the (non-finite) number
`Infinity` rather than the original string — the code's test is
`isNaN(Number(value))`, not finiteness. -/
theorem infinity_stored_as_number :
    objGet (buildImageOptions [("width", "Infinity")] "") "width"
      = some (.num (.inf false)) ∧
    (∀ q : ℚ, JSNum.inf false ≠ JSNum.val q) ∧
    objGet (buildImageOptions [("width", "Infinity")] "") "width"
      ≠ some (.str "Infinity") :=
  ⟨by decide, fun _ h => JSNum.noConfusion h, by decide⟩

/-- C5 as amended: the transformation-options mapping contains exactly the
allow-listed query keys (plus `format`); an allow-listed value is stored
as a number when `Number(value)` is not NaN (this includes non-finite
values such as `Infinity`), else as the original string; query parameters
outside the allow-list are silently dropped. -/
theorem query_options_characterization (query : List (String × String)) (a k : String) :
    ((∃ v, objGet (buildImageOptions query a) k = some v) ↔
      (k = "format" ∨ (allowedParams.contains k = true ∧ ∃ s, (k, s) ∈ query))) ∧
    (∀ v, k ≠ "format" → objGet (buildImageOptions query a) k = some v →
      ∃ s, (k, s) ∈ query ∧
        v = (if jsStringToNumber s = .nan then OptVal.str s
             else OptVal.num (jsStringToNumber s))) := by
  have hmap : ∀ s, mapQueryValue s
      = (if jsStringToNumber s = .nan then OptVal.str s
         else OptVal.num (jsStringToNumber s)) := by
    intro s
    unfold mapQueryValue
    cases hn : jsStringToNumber s <;> simp [hn]
  by_cases hk : k = "format"
  · subst hk
    have hself : objGet (buildImageOptions query a) "format"
        = some (.str (negotiateFormat a)) := by
      unfold buildImageOptions
      exact objGet_objSet_self _ _ _
    constructor
    · rw [hself]
      exact iff_of_true ⟨_, rfl⟩ (Or.inl rfl)
    · intro v hne
      exact absurd rfl hne
  · have hbase : objGet (buildImageOptions query a) k
        = if allowedParams.contains k then
            (match lastVal query k with
             | some s => some (mapQueryValue s)
             | none => objGet ([] : List (String × OptVal)) k)
          else objGet ([] : List (String × OptVal)) k := by
      unfold buildImageOptions
      rw [objGet_objSet_ne _ _ _ _ hk]
      exact objGet_queryFold query [] k
    by_cases hall : allowedParams.contains k
    · cases hlast : lastVal query k with
      | none =>
          have hbase2 : objGet (buildImageOptions query a) k = none := by
            rw [hbase, if_pos hall, hlast]
            rfl
          constructor
          · rw [hbase2]
            constructor
            · rintro ⟨v, hv⟩
              cases hv
            · rintro (h | ⟨_, s, hs⟩)
              · exact absurd h hk
              · exact absurd hs ((lastVal_eq_none_iff query k).mp hlast s)
          · intro v _ hv
            rw [hbase2] at hv
            cases hv
      | some s =>
          have hbase2 : objGet (buildImageOptions query a) k
              = some (mapQueryValue s) := by
            rw [hbase, if_pos hall, hlast]
          constructor
          · rw [hbase2]
            exact iff_of_true ⟨_, rfl⟩
              (Or.inr ⟨hall, s, lastVal_mem query k s hlast⟩)
          · intro v _ hv
            rw [hbase2] at hv
            injection hv with hv
            exact ⟨s, lastVal_mem query k s hlast, by rw [← hv, hmap]⟩
    · have hbase2 : objGet (buildImageOptions query a) k = none := by
        rw [hbase, if_neg hall]
        rfl
      constructor
      · rw [hbase2]
        constructor
        · rintro ⟨v, hv⟩
          cases hv
        · rintro (h | ⟨hc, _⟩)
          · exact absurd h hk
          · exact absurd hc hall
      · intro v _ hv
        rw [hbase2] at hv
        cases hv

/-- Witness for C5 (amended): a stored numeric value (the non-NaN
`Infinity`), and a dropped unknown key. -/
theorem query_options_characterization_witness :
    (∃ s, ("width", s) ∈ ([("width", "Infinity"), ("junk", "1")] : List (String × String)) ∧
      OptVal.num (.inf false)
        = (if jsStringToNumber s = .nan then OptVal.str s
           else OptVal.num (jsStringToNumber s))) ∧
    ¬(("junk" : String) = "format" ∨
      (allowedParams.contains "junk" = true ∧
        ∃ s, (("junk" : String), s) ∈ ([("width", "Infinity"), ("junk", "1")] :
          List (String × String)))) :=
  ⟨(query_options_characterization [("width", "Infinity"), ("junk", "1")] "" "width").2
      (OptVal.num (.inf false)) (by decide) rfl,
   fun h =>
     ((query_options_characterization [("width", "Infinity"), ("junk", "1")] "" "junk").1.mpr
         h).elim (fun v hv => by cases hv)⟩

end ImgWorker
